import Mathlib

/-!
# Amplication — billing entitlement validation, plugin-event contracts,
# and publish-changes version computation

A shallow embedding of the parts of the repository the claims speak about:

* the billing service's subscription/entitlement validation
  (`validateSubscriptionPlanLimitationsForWorkspace`, `getSubscription`),
  modelled from the spec and the service's unit test, since the service
  implementation itself is not among the staged files;
* the code-generation plugin-event parameter contracts
  (`CreateEntityServiceParams`, `CreateServerDockerComposeParams`);
* the publish-changes page's per-template semver version computation.
-/

namespace Amplication

/-! ## Billing data model -/

/-- Git providers, after `EnumGitProvider` in the git DTO enums. -/
inductive EnumGitProvider
  | Github
  | Bitbucket
  | AwsCodeCommit
  | GitLab
deriving DecidableEq, Repr

/-- Modelled from the spec: the `BillingFeature` keys of the third-party
billing SDK that the validation logic queries (`@amplication/util-billing-types`
is not among the staged files).  A `Github` flag is included so that the
property "the Github entitlement is never queried" is statable. -/
inductive BillingFeature
  | IgnoreValidationCodeGeneration
  | Services
  | TeamMembers
  | Projects
  | ServicesAboveEntitiesPerServiceLimit
  | AwsCodeCommit
  | Bitbucket
  | GitLab
  | Github
deriving DecidableEq, Repr

/-- A boolean feature entitlement as reported by the billing SDK. -/
structure BooleanEntitlement where
  hasAccess : Bool
deriving DecidableEq, Repr

/-- A metered feature entitlement as reported by the billing SDK. -/
structure MeteredEntitlement where
  hasAccess : Bool
  usageLimit : Nat
deriving DecidableEq, Repr

/-- A git organization record (the fields the validation logic reads). -/
structure GitOrganization where
  id : String
  provider : EnumGitProvider
deriving DecidableEq, Repr

/-- A git repository record with its resolved git organization. -/
structure GitRepository where
  id : String
  name : String
  gitOrganizationId : String
  gitOrganization : GitOrganization
deriving DecidableEq, Repr

/-- An account record (the fields appearing in the validation arguments). -/
structure Account where
  id : String
  email : String
  firstName : String
  lastName : String
  password : String
deriving DecidableEq, Repr

/-- A user record (the fields appearing in the validation arguments). -/
structure User where
  id : String
  isOwner : Bool
  account : Account
deriving DecidableEq, Repr

/-- A project record (the fields appearing in the validation arguments). -/
structure Project where
  id : String
  name : String
  workspaceId : String
  useDemoRepo : Bool
deriving DecidableEq, Repr

/-- The argument object of `validateSubscriptionPlanLimitationsForWorkspace`. -/
structure ValidateWorkspaceArgs where
  workspaceId : String
  currentUser : User
  currentProjectId : String
  projects : List Project
  repositories : List GitRepository
deriving DecidableEq, Repr

/-- The billing limitation error thrown when a plan limit is exceeded. -/
structure BillingLimitationError where
  message : String
deriving DecidableEq, Repr

/-- One entitlement query issued to the billing SDK during validation:
either a boolean-entitlement or a metered-entitlement lookup for a feature.
The workspace id is fixed for the whole call and is left implicit. -/
inductive EntitlementQuery
  | boolean (feature : BillingFeature)
  | metered (feature : BillingFeature)
deriving DecidableEq, Repr

/-- The billing feature flag checked for a git provider. -/
def gitProviderFeature : EnumGitProvider → BillingFeature
  | .Github => .Github
  | .Bitbucket => .Bitbucket
  | .AwsCodeCommit => .AwsCodeCommit
  | .GitLab => .GitLab

/-- The provider's name as it appears in error messages. -/
def gitProviderName : EnumGitProvider → String
  | .Github => "Github"
  | .Bitbucket => "Bitbucket"
  | .AwsCodeCommit => "AwsCodeCommit"
  | .GitLab => "GitLab"

/-- The message of the limitation error thrown for a disallowed git provider. -/
def gitProviderMessage (p : EnumGitProvider) : String :=
  "Your workspace uses " ++ gitProviderName p ++
    " integration, while it is not part of your current plan."

/-- Modelled from the spec: the git-provider portion of the billing
validation (the service implementation is not among the staged files).  The
providers of the workspace's repositories are checked in order against the
corresponding boolean feature flag; Github is the default provider and is
never checked; the first denied provider aborts the validation with a
`BillingLimitationError`.  Returns the outcome together with the list of
entitlement queries issued. -/
def checkGitProviders
    (getBooleanEntitlement : BillingFeature → BooleanEntitlement) :
    List EnumGitProvider →
      Except BillingLimitationError Unit × List EntitlementQuery
  | [] => (Except.ok (), [])
  | p :: rest =>
    if p = EnumGitProvider.Github then
      checkGitProviders getBooleanEntitlement rest
    else
      let entitlement := getBooleanEntitlement (gitProviderFeature p)
      if entitlement.hasAccess then
        let next := checkGitProviders getBooleanEntitlement rest
        (next.1, EntitlementQuery.boolean (gitProviderFeature p) :: next.2)
      else
        (Except.error ⟨gitProviderMessage p⟩,
          [EntitlementQuery.boolean (gitProviderFeature p)])

/-- Modelled from the spec: the subscription/entitlement validation of the
billing service, which gates resource creation against metered and boolean
feature flags pulled from the billing SDK (the service implementation is not
among the staged files; behaviour follows the spec and the service's unit
test, with billing enabled).  The SDK is abstracted as the two lookup
functions; the result is paired with the trace of entitlement queries, in
order.  The sequence: the `IgnoreValidationCodeGeneration` bypass flag is
read once; when it grants access validation succeeds immediately; otherwise
the `Services` metered entitlement, then the `TeamMembers` metered
entitlement, then the git-provider flags are checked, each failure raising a
`BillingLimitationError` with its own message. -/
def validateSubscriptionPlanLimitationsForWorkspace
    (getBooleanEntitlement : BillingFeature → BooleanEntitlement)
    (getMeteredEntitlement : BillingFeature → MeteredEntitlement)
    (args : ValidateWorkspaceArgs) :
    Except BillingLimitationError Unit × List EntitlementQuery :=
  let ignoreQ := EntitlementQuery.boolean BillingFeature.IgnoreValidationCodeGeneration
  let ignoreValidation :=
    getBooleanEntitlement BillingFeature.IgnoreValidationCodeGeneration
  if ignoreValidation.hasAccess then
    (Except.ok (), [ignoreQ])
  else
    let servicesQ := EntitlementQuery.metered BillingFeature.Services
    let services := getMeteredEntitlement BillingFeature.Services
    if !services.hasAccess then
      (Except.error ⟨"Your workspace exceeds its resource limitation."⟩,
        [ignoreQ, servicesQ])
    else
      let teamQ := EntitlementQuery.metered BillingFeature.TeamMembers
      let teamMembers := getMeteredEntitlement BillingFeature.TeamMembers
      if !teamMembers.hasAccess then
        (Except.error ⟨"Your workspace exceeds its team member limitation."⟩,
          [ignoreQ, servicesQ, teamQ])
      else
        let gitResult :=
          checkGitProviders getBooleanEntitlement
            (args.repositories.map (fun repo => repo.gitOrganization.provider))
        (gitResult.1, ignoreQ :: servicesQ :: teamQ :: gitResult.2)

/-! ## getSubscription -/

/-- A status an active subscription reported by the billing SDK can carry
(the SDK's active-subscriptions lookup never returns cancelled, expired,
not-started or payment-pending subscriptions). -/
inductive SubscriptionStatus
  | Active
  | InTrial
deriving DecidableEq, Repr

/-- A billing plan id of the SDK. -/
inductive BillingPlan
  | Free
  | Enterprise
deriving DecidableEq, Repr

/-- A subscription as reported by the billing SDK (the fields read by
`getSubscription`: the id, the status and the plan's id). -/
structure FullSubscription where
  id : String
  status : SubscriptionStatus
  planId : BillingPlan
deriving DecidableEq, Repr

/-- The persistence-layer subscription status enum. -/
inductive EnumSubscriptionStatus
  | Active
  | Trailing
deriving DecidableEq, Repr

/-- The persistence-layer subscription plan enum. -/
inductive EnumSubscriptionPlan
  | Free
  | Enterprise
deriving DecidableEq, Repr

/-- The subscription record `getSubscription` returns (creation and update
timestamps omitted: the test only checks they are dates). -/
structure Subscription where
  id : String
  workspaceId : String
  status : EnumSubscriptionStatus
  subscriptionPlan : EnumSubscriptionPlan
deriving DecidableEq, Repr

/-- Modelled from the spec: the SDK-to-persistence subscription status map
(`Active` stays `Active`, `InTrial` becomes `Trailing`). -/
def mapSubscriptionStatus : SubscriptionStatus → EnumSubscriptionStatus
  | .Active => .Active
  | .InTrial => .Trailing

/-- Modelled from the spec: the SDK-to-persistence plan map. -/
def mapSubscriptionPlan : BillingPlan → EnumSubscriptionPlan
  | .Free => .Free
  | .Enterprise => .Enterprise

/-- Modelled from the spec: `getSubscription` of the billing service (the
service implementation is not among the staged files).  The SDK's
active-subscriptions answer for the workspace is abstracted as the list
`activeSubscriptions`; amplication always has at most one subscription, and
the first one is converted, or `none` is returned when there is none. -/
def getSubscription (workspaceId : String)
    (activeSubscriptions : List FullSubscription) : Option Subscription :=
  match activeSubscriptions with
  | [] => none
  | sub :: _ =>
    some
      { id := sub.id
        workspaceId := workspaceId
        status := mapSubscriptionStatus sub.status
        subscriptionPlan := mapSubscriptionPlan sub.planId }

/-! ## Test fixture

Concrete values mirroring the unit test's arrangement, used by the witness
theorems to instantiate the claims. -/

/-- The user of the unit test's fixture. -/
def fixtureUser : User :=
  { id := "user-id"
    isOwner := true
    account :=
      { id := "account-id"
        email := "email"
        firstName := "first-name"
        lastName := "last-name"
        password := "password" } }

/-- The project list of the unit test's fixture. -/
def fixtureProjects : List Project :=
  [{ id := "project-id-1"
     name := "project-1"
     workspaceId := "id"
     useDemoRepo := false }]

/-- A repository whose git organization uses the given provider. -/
def fixtureRepository (p : EnumGitProvider) : GitRepository :=
  { id := "git-repository-id"
    name := "git-repository-name"
    gitOrganizationId := "git-organization-id"
    gitOrganization := { id := "git-organization-id", provider := p } }

/-- The validation arguments of the unit test's fixture, with a single
repository on the given git provider. -/
def fixtureArgs (p : EnumGitProvider) : ValidateWorkspaceArgs :=
  { workspaceId := "id"
    currentUser := fixtureUser
    currentProjectId := "project-id-1"
    projects := fixtureProjects
    repositories := [fixtureRepository p] }

/-- Boolean entitlements of the git-provider test: the bypass flag and the
given provider's flag are denied, every other flag is granted. -/
def fixtureProviderBooleans (p : EnumGitProvider) :
    BillingFeature → BooleanEntitlement := fun feature =>
  if feature = BillingFeature.IgnoreValidationCodeGeneration ∨
      feature = gitProviderFeature p then
    { hasAccess := false }
  else
    { hasAccess := true }

/-- Metered entitlements of the git-provider test: everything granted with a
usage limit of 1000. -/
def fixtureGrantedMetered : BillingFeature → MeteredEntitlement :=
  fun _ => { hasAccess := true, usageLimit := 1000 }

/-! ## Claims about the billing validation -/

/-- C1: For every workspace whose `IgnoreValidationCodeGeneration` boolean
entitlement has `hasAccess = false` and whose `Services` metered entitlement
has `hasAccess = false`, `validateSubscriptionPlanLimitationsForWorkspace`
rejects with a `BillingLimitationError` whose message is
"Your workspace exceeds its resource limitation.", having queried the
bypass flag and the `Services` metered flag. -/
theorem validate_throws_on_services_limit
    (getBooleanEntitlement : BillingFeature → BooleanEntitlement)
    (getMeteredEntitlement : BillingFeature → MeteredEntitlement)
    (args : ValidateWorkspaceArgs)
    (hIgnore : (getBooleanEntitlement
        BillingFeature.IgnoreValidationCodeGeneration).hasAccess = false)
    (hServices : (getMeteredEntitlement BillingFeature.Services).hasAccess = false) :
    validateSubscriptionPlanLimitationsForWorkspace
        getBooleanEntitlement getMeteredEntitlement args =
      (Except.error ⟨"Your workspace exceeds its resource limitation."⟩,
        [EntitlementQuery.boolean BillingFeature.IgnoreValidationCodeGeneration,
         EntitlementQuery.metered BillingFeature.Services]) := by
  simp [validateSubscriptionPlanLimitationsForWorkspace, hIgnore, hServices]

/-- Witness for C1: the unit test's arrangement (every boolean entitlement
denied, every metered entitlement denied) rejects on the resource limit. -/
theorem validate_throws_on_services_limit_witness :
    validateSubscriptionPlanLimitationsForWorkspace
        (fun _ => { hasAccess := false })
        (fun _ => { hasAccess := false, usageLimit := 3 })
        (fixtureArgs EnumGitProvider.Github) =
      (Except.error ⟨"Your workspace exceeds its resource limitation."⟩,
        [EntitlementQuery.boolean BillingFeature.IgnoreValidationCodeGeneration,
         EntitlementQuery.metered BillingFeature.Services]) :=
  validate_throws_on_services_limit _ _ _ rfl rfl

/-- C2: the entitlement checks form a fixed sequence querying the `Services`
metered entitlement strictly before the `TeamMembers` metered entitlement, so
when the bypass flag is denied, `Services` grants access and `TeamMembers`
denies it, the call rejects with the team-member limitation message, its
query trace being exactly bypass flag, then `Services`, then `TeamMembers`. -/
theorem validate_throws_on_team_members_limit
    (getBooleanEntitlement : BillingFeature → BooleanEntitlement)
    (getMeteredEntitlement : BillingFeature → MeteredEntitlement)
    (args : ValidateWorkspaceArgs)
    (hIgnore : (getBooleanEntitlement
        BillingFeature.IgnoreValidationCodeGeneration).hasAccess = false)
    (hServices : (getMeteredEntitlement BillingFeature.Services).hasAccess = true)
    (hTeam : (getMeteredEntitlement BillingFeature.TeamMembers).hasAccess = false) :
    validateSubscriptionPlanLimitationsForWorkspace
        getBooleanEntitlement getMeteredEntitlement args =
      (Except.error ⟨"Your workspace exceeds its team member limitation."⟩,
        [EntitlementQuery.boolean BillingFeature.IgnoreValidationCodeGeneration,
         EntitlementQuery.metered BillingFeature.Services,
         EntitlementQuery.metered BillingFeature.TeamMembers]) := by
  simp [validateSubscriptionPlanLimitationsForWorkspace, hIgnore, hServices, hTeam]

/-- Witness for C2: the unit test's arrangement (bypass denied, `Services`
granted, `TeamMembers` denied) rejects on the team-member limit after
querying `Services` first and `TeamMembers` second. -/
theorem validate_throws_on_team_members_limit_witness :
    validateSubscriptionPlanLimitationsForWorkspace
        (fun _ => { hasAccess := false })
        (fun feature =>
          match feature with
          | BillingFeature.Services => { hasAccess := true, usageLimit := 3 }
          | BillingFeature.TeamMembers => { hasAccess := false, usageLimit := 2 }
          | BillingFeature.Projects => { hasAccess := true, usageLimit := 1 }
          | _ => { hasAccess := false, usageLimit := 5 })
        (fixtureArgs EnumGitProvider.Github) =
      (Except.error ⟨"Your workspace exceeds its team member limitation."⟩,
        [EntitlementQuery.boolean BillingFeature.IgnoreValidationCodeGeneration,
         EntitlementQuery.metered BillingFeature.Services,
         EntitlementQuery.metered BillingFeature.TeamMembers]) :=
  validate_throws_on_team_members_limit _ _ _ rfl rfl rfl

/-- When some non-Github provider with a denied feature flag occurs in the
provider list, the git-provider check aborts with the provider message of a
denied non-Github provider of the list (the first such one encountered). -/
theorem checkGitProviders_denied
    (getBooleanEntitlement : BillingFeature → BooleanEntitlement)
    (ps : List EnumGitProvider) (p : EnumGitProvider)
    (hmem : p ∈ ps) (hng : p ≠ EnumGitProvider.Github)
    (hdeny : (getBooleanEntitlement (gitProviderFeature p)).hasAccess = false) :
    ∃ q ∈ ps, q ≠ EnumGitProvider.Github ∧
      (getBooleanEntitlement (gitProviderFeature q)).hasAccess = false ∧
      (checkGitProviders getBooleanEntitlement ps).1 =
        Except.error ⟨gitProviderMessage q⟩ := by
  induction ps with
  | nil => cases hmem
  | cons r rest ih =>
    by_cases hr : r = EnumGitProvider.Github
    · subst hr
      have hp : p ∈ rest := by
        cases List.mem_cons.mp hmem with
        | inl h => exact absurd h hng
        | inr h => exact h
      obtain ⟨q, hq1, hq2, hq3, hq4⟩ := ih hp
      exact ⟨q, List.mem_cons_of_mem _ hq1, hq2, hq3, by
        simpa [checkGitProviders] using hq4⟩
    · by_cases ha : (getBooleanEntitlement (gitProviderFeature r)).hasAccess
      · have hp : p ∈ rest := by
          cases List.mem_cons.mp hmem with
          | inl h => rw [h] at hdeny; rw [hdeny] at ha; cases ha
          | inr h => exact h
        obtain ⟨q, hq1, hq2, hq3, hq4⟩ := ih hp
        refine ⟨q, List.mem_cons_of_mem _ hq1, hq2, hq3, ?_⟩
        simp [checkGitProviders, hr, ha, hq4]
      · exact ⟨r, List.mem_cons_self r rest, hr, by simpa using ha, by
          simp [checkGitProviders, hr, ha]⟩

/-- A provider list made of Github alone issues no query and succeeds. -/
theorem checkGitProviders_all_github
    (getBooleanEntitlement : BillingFeature → BooleanEntitlement)
    (ps : List EnumGitProvider)
    (hall : ∀ p ∈ ps, p = EnumGitProvider.Github) :
    checkGitProviders getBooleanEntitlement ps = (Except.ok (), []) := by
  induction ps with
  | nil => rfl
  | cons r rest ih =>
    have hr := hall r (List.mem_cons_self r rest)
    subst hr
    simpa [checkGitProviders] using
      ih (fun p hp => hall p (List.mem_cons_of_mem _ hp))

/-- C3: for a workspace without the bypass entitlement, with its metered
entitlements granted, whose repositories include a git organization on the
`AwsCodeCommit`, `Bitbucket` or `GitLab` provider with that provider's
boolean entitlement denied, the validation rejects with a
`BillingLimitationError` of the form
"Your workspace uses <provider> integration, while it is not part of your
current plan." for a denied non-Github provider the workspace uses. -/
theorem validate_throws_on_git_provider
    (getBooleanEntitlement : BillingFeature → BooleanEntitlement)
    (getMeteredEntitlement : BillingFeature → MeteredEntitlement)
    (args : ValidateWorkspaceArgs) (p : EnumGitProvider)
    (hIgnore : (getBooleanEntitlement
        BillingFeature.IgnoreValidationCodeGeneration).hasAccess = false)
    (hServices : (getMeteredEntitlement BillingFeature.Services).hasAccess = true)
    (hTeam : (getMeteredEntitlement BillingFeature.TeamMembers).hasAccess = true)
    (hp : p = EnumGitProvider.AwsCodeCommit ∨ p = EnumGitProvider.Bitbucket ∨
      p = EnumGitProvider.GitLab)
    (hmem : p ∈ args.repositories.map (fun repo => repo.gitOrganization.provider))
    (hdeny : (getBooleanEntitlement (gitProviderFeature p)).hasAccess = false) :
    ∃ q ∈ args.repositories.map (fun repo => repo.gitOrganization.provider),
      q ≠ EnumGitProvider.Github ∧
      (getBooleanEntitlement (gitProviderFeature q)).hasAccess = false ∧
      (validateSubscriptionPlanLimitationsForWorkspace
          getBooleanEntitlement getMeteredEntitlement args).1 =
        Except.error ⟨gitProviderMessage q⟩ := by
  have hng : p ≠ EnumGitProvider.Github := by
    rcases hp with h | h | h <;> subst h <;> intro hc <;> cases hc
  obtain ⟨q, hq1, hq2, hq3, hq4⟩ :=
    checkGitProviders_denied getBooleanEntitlement _ p hmem hng hdeny
  refine ⟨q, hq1, hq2, hq3, ?_⟩
  simp [validateSubscriptionPlanLimitationsForWorkspace, hIgnore, hServices,
    hTeam, hq4]

/-- Witness for C3: the unit test's Bitbucket arrangement (bypass and
Bitbucket flags denied, everything else granted, one Bitbucket repository)
rejects with the Bitbucket integration message. -/
theorem validate_throws_on_git_provider_witness :
    ∃ q ∈ ((fixtureArgs EnumGitProvider.Bitbucket).repositories.map
        (fun repo => repo.gitOrganization.provider)),
      q ≠ EnumGitProvider.Github ∧
      (fixtureProviderBooleans EnumGitProvider.Bitbucket
        (gitProviderFeature q)).hasAccess = false ∧
      (validateSubscriptionPlanLimitationsForWorkspace
          (fixtureProviderBooleans EnumGitProvider.Bitbucket)
          fixtureGrantedMetered
          (fixtureArgs EnumGitProvider.Bitbucket)).1 =
        Except.error ⟨gitProviderMessage q⟩ :=
  validate_throws_on_git_provider
    (fixtureProviderBooleans EnumGitProvider.Bitbucket) fixtureGrantedMetered
    (fixtureArgs EnumGitProvider.Bitbucket) EnumGitProvider.Bitbucket
    (by decide) (by decide) (by decide)
    (Or.inr (Or.inl rfl)) (by decide) (by decide)

/-- C4: the Github git-provider boolean entitlement is never queried: when
every repository of the workspace uses the Github provider and the metered
entitlements grant access, the validation succeeds, whatever every boolean
entitlement (the Github flag included) would answer, and its query trace
holds no Github boolean query. -/
theorem validate_never_checks_github
    (getBooleanEntitlement : BillingFeature → BooleanEntitlement)
    (getMeteredEntitlement : BillingFeature → MeteredEntitlement)
    (args : ValidateWorkspaceArgs)
    (hAll : ∀ repo ∈ args.repositories,
      repo.gitOrganization.provider = EnumGitProvider.Github)
    (hServices : (getMeteredEntitlement BillingFeature.Services).hasAccess = true)
    (hTeam : (getMeteredEntitlement BillingFeature.TeamMembers).hasAccess = true) :
    (validateSubscriptionPlanLimitationsForWorkspace
        getBooleanEntitlement getMeteredEntitlement args).1 = Except.ok () ∧
    EntitlementQuery.boolean BillingFeature.Github ∉
      (validateSubscriptionPlanLimitationsForWorkspace
        getBooleanEntitlement getMeteredEntitlement args).2 := by
  have hgit : checkGitProviders getBooleanEntitlement
      (args.repositories.map (fun repo => repo.gitOrganization.provider)) =
      (Except.ok (), []) := by
    refine checkGitProviders_all_github _ _ ?_
    intro p hp
    obtain ⟨repo, hrepo, hpe⟩ := List.mem_map.mp hp
    rw [← hpe]
    exact hAll repo hrepo
  by_cases hi : (getBooleanEntitlement
      BillingFeature.IgnoreValidationCodeGeneration).hasAccess
  · constructor <;>
      simp [validateSubscriptionPlanLimitationsForWorkspace, hi]
  · constructor <;>
      simp [validateSubscriptionPlanLimitationsForWorkspace, hi, hServices,
        hTeam, hgit]

/-- Witness for C4: the unit test's Github arrangement (every boolean
entitlement denied, the Github flag included; metered entitlements granted;
one Github repository) succeeds without ever querying the Github flag. -/
theorem validate_never_checks_github_witness :
    (validateSubscriptionPlanLimitationsForWorkspace
        (fun _ => { hasAccess := false }) fixtureGrantedMetered
        (fixtureArgs EnumGitProvider.Github)).1 = Except.ok () ∧
    EntitlementQuery.boolean BillingFeature.Github ∉
      (validateSubscriptionPlanLimitationsForWorkspace
        (fun _ => { hasAccess := false }) fixtureGrantedMetered
        (fixtureArgs EnumGitProvider.Github)).2 :=
  validate_never_checks_github (fun _ => { hasAccess := false })
    fixtureGrantedMetered (fixtureArgs EnumGitProvider.Github)
    (by decide) rfl rfl

/-- C5: `getSubscription` answers `none` when the billing SDK reports no
active subscription; for one reported subscription it returns a record with
the same id, the given workspace id, the status mapped `Active` to `Active`
and `InTrial` to `Trailing`, and the plan mapped `Free` to `Free` and
`Enterprise` to `Enterprise`. -/
theorem getSubscription_maps_single_subscription :
    (∀ workspaceId, getSubscription workspaceId [] = none) ∧
    (∀ workspaceId (sub : FullSubscription),
      getSubscription workspaceId [sub] =
        some
          { id := sub.id
            workspaceId := workspaceId
            status := mapSubscriptionStatus sub.status
            subscriptionPlan := mapSubscriptionPlan sub.planId }) ∧
    mapSubscriptionStatus SubscriptionStatus.Active =
      EnumSubscriptionStatus.Active ∧
    mapSubscriptionStatus SubscriptionStatus.InTrial =
      EnumSubscriptionStatus.Trailing ∧
    mapSubscriptionPlan BillingPlan.Free = EnumSubscriptionPlan.Free ∧
    mapSubscriptionPlan BillingPlan.Enterprise =
      EnumSubscriptionPlan.Enterprise :=
  ⟨fun _ => rfl, fun _ _ => rfl, rfl, rfl, rfl, rfl⟩

/-- The git-provider check never queries the bypass flag: every query it
issues is the boolean flag of some git provider. -/
theorem checkGitProviders_no_ignore_query
    (getBooleanEntitlement : BillingFeature → BooleanEntitlement)
    (ps : List EnumGitProvider) :
    EntitlementQuery.boolean BillingFeature.IgnoreValidationCodeGeneration ∉
      (checkGitProviders getBooleanEntitlement ps).2 := by
  induction ps with
  | nil => simp [checkGitProviders]
  | cons r rest ih =>
    by_cases hr : r = EnumGitProvider.Github
    · simpa [checkGitProviders, hr] using ih
    · by_cases ha : (getBooleanEntitlement (gitProviderFeature r)).hasAccess
      · simp only [checkGitProviders, if_neg hr, ha, if_pos, List.mem_cons]
        rintro (hc | hc)
        · cases r <;> cases hc
        · exact ih hc
      · simp only [checkGitProviders, if_neg hr, ha, Bool.false_eq_true,
          if_neg, List.mem_singleton]
        cases r <;> simp [gitProviderFeature]

/-- C6: every call of `validateSubscriptionPlanLimitationsForWorkspace`
queries the `IgnoreValidationCodeGeneration` boolean entitlement exactly
once, whatever the entitlement answers are and wherever validation stops. -/
theorem validate_queries_ignore_exactly_once
    (getBooleanEntitlement : BillingFeature → BooleanEntitlement)
    (getMeteredEntitlement : BillingFeature → MeteredEntitlement)
    (args : ValidateWorkspaceArgs) :
    ((validateSubscriptionPlanLimitationsForWorkspace
        getBooleanEntitlement getMeteredEntitlement args).2).count
      (EntitlementQuery.boolean BillingFeature.IgnoreValidationCodeGeneration)
      = 1 := by
  by_cases hi : (getBooleanEntitlement
      BillingFeature.IgnoreValidationCodeGeneration).hasAccess
  · simp [validateSubscriptionPlanLimitationsForWorkspace, hi]
  · by_cases hs : (getMeteredEntitlement BillingFeature.Services).hasAccess
    · by_cases ht : (getMeteredEntitlement BillingFeature.TeamMembers).hasAccess
      · have hno := checkGitProviders_no_ignore_query getBooleanEntitlement
          (args.repositories.map (fun repo => repo.gitOrganization.provider))
        simp [validateSubscriptionPlanLimitationsForWorkspace, hi, hs, ht,
          List.count_cons, List.count_eq_zero.mpr hno]
      · simp [validateSubscriptionPlanLimitationsForWorkspace, hi, hs, ht,
          List.count_cons]
    · simp [validateSubscriptionPlanLimitationsForWorkspace, hi, hs,
        List.count_cons]

/-! ## Plugin-event parameter contracts -/

/-- Modelled from the spec: `EventParams` of the plugin types (the file
declaring it is not among the staged files); the base event-parameter
interface declares no fields of its own. -/
structure EventParams where
deriving DecidableEq, Repr

/-- Modelled from the spec: the `Entity` model of the code-gen types (not
among the staged files); its internals do not matter to the contract layer
and only an identifying carrier is kept. -/
structure Entity where
  id : String
  name : String
deriving DecidableEq, Repr

/-- Modelled from the spec: the `entityActions` record of the code-gen types
(not among the staged files); an abstract carrier of the entity's actions. -/
structure entityActions where
  actions : List String
deriving DecidableEq, Repr

/-- The `CreateEntityServiceParams` event contract: it extends `EventParams`
with exactly the fields `entity`, `resourceName`, `apisDir` and
`entityActions`. -/
structure CreateEntityServiceParams extends EventParams where
  entity : Entity
  resourceName : String
  apisDir : String
  entityActions : Amplication.entityActions
deriving DecidableEq, Repr

/-- The `CreateServerDockerComposeParams` event contract: it extends
`EventParams` with exactly the fields `fileContent`, `updateProperties` and
`outputFileName`.  A JSON update-properties object is represented as a
key-value list. -/
structure CreateServerDockerComposeParams extends EventParams where
  fileContent : String
  updateProperties : List (List (String × String))
  outputFileName : String
deriving DecidableEq, Repr

/-- C7: the contract layer defines `CreateEntityServiceParams` as
`EventParams` plus exactly `entity`, `resourceName`, `apisDir` and
`entityActions`, and `CreateServerDockerComposeParams` as `EventParams` plus
exactly `fileContent`, `updateProperties` and `outputFileName`: two values
of either contract are equal precisely when those fields agree, so the
listed fields determine the whole record and no further field exists. -/
theorem contract_params_exact_fields :
    (∀ a b : CreateEntityServiceParams,
      a = b ↔ a.entity = b.entity ∧ a.resourceName = b.resourceName ∧
        a.apisDir = b.apisDir ∧ a.entityActions = b.entityActions) ∧
    (∀ a b : CreateServerDockerComposeParams,
      a = b ↔ a.fileContent = b.fileContent ∧
        a.updateProperties = b.updateProperties ∧
        a.outputFileName = b.outputFileName) := by
  constructor
  · intro a b
    obtain ⟨⟨⟩, ae, ar, aa, ax⟩ := a
    obtain ⟨⟨⟩, be, br, ba, bx⟩ := b
    simp
  · intro a b
    obtain ⟨⟨⟩, af, au, ao⟩ := a
    obtain ⟨⟨⟩, bf, bu, bo⟩ := b
    simp

/-! ## Semver and the publish-changes page -/

/-- A release type of the semver library, as used by the page's version
toggle. -/
inductive ReleaseType
  | major
  | minor
  | patch
deriving DecidableEq, Repr

/-- The initial release-type state of the page
(`useState<ReleaseType>("minor")`). -/
def defaultReleaseType : ReleaseType := ReleaseType.minor

/-- Splitting a character list on the dot character: every dot opens a new
group, so `n` dots give `n + 1` groups. -/
def splitOnDot : List Char → List (List Char)
  | [] => [[]]
  | c :: cs =>
    if c = '.' then [] :: splitOnDot cs
    else
      match splitOnDot cs with
      | [] => [[c]]
      | group :: groups => (c :: group) :: groups

/-- A nonempty all-digit character group read as a decimal number. -/
def digitGroupToNat : List Char → Option Nat
  | [] => none
  | cs =>
    if cs.all Char.isDigit then
      some (cs.foldl (fun n c => n * 10 + (c.toNat - 48)) 0)
    else none

/-- Modelled from the spec: parsing of a plain `MAJOR.MINOR.PATCH` semver
string (the npm `semver` library is an external dependency; prerelease and
build-metadata forms are outside the versions this page produces and
consumes). -/
def parseSemver (s : String) : Option (Nat × Nat × Nat) :=
  match splitOnDot s.toList with
  | [a, b, c] =>
    match digitGroupToNat a, digitGroupToNat b, digitGroupToNat c with
    | some x, some y, some z => some (x, y, z)
    | _, _, _ => none
  | _ => none

/-- Modelled from the spec: the semver library's validity test, restricted
to plain `MAJOR.MINOR.PATCH` versions. -/
def valid (s : String) : Bool :=
  (parseSemver s).isSome

/-- The semver bump: a major release resets minor and patch, a minor release
resets patch, a patch release bumps the last component. -/
def bumpVersion : ReleaseType → Nat × Nat × Nat → Nat × Nat × Nat
  | .major, (x, _, _) => (x + 1, 0, 0)
  | .minor, (x, y, _) => (x, y + 1, 0)
  | .patch, (x, y, z) => (x, y, z + 1)

/-- Rendering of a version triple back to `MAJOR.MINOR.PATCH`. -/
def renderSemver : Nat × Nat × Nat → String
  | (x, y, z) => toString x ++ "." ++ toString y ++ "." ++ toString z

/-- Modelled from the spec: the semver library's `inc` (imported by the page
as `incrementVersion`): `none` on an invalid version, otherwise the bumped
version. -/
def incrementVersion (s : String) (r : ReleaseType) : Option String :=
  (parseSemver s).map (fun v => renderSemver (bumpVersion r v))

/-- Resource types of the client models (the ones the page distinguishes,
with representatives of the rest). -/
inductive EnumResourceType
  | ServiceTemplate
  | Service
  | ProjectConfiguration
  | MessageBroker
  | PluginRepository
  | Component
deriving DecidableEq, Repr

/-- A resource version record (the `version` field the page reads). -/
structure ResourceVersion where
  version : String
deriving DecidableEq, Repr

/-- A resource as the page reads it: id, name, type, project id and the
optional current version record. -/
structure Resource where
  id : String
  name : String
  resourceType : EnumResourceType
  projectId : Option String
  version : Option ResourceVersion
deriving DecidableEq, Repr

/-- One entry of `pendingChangesByResource`: a resource together with its
pending changes (represented by their ids). -/
structure PendingChangeByResource where
  resource : Resource
  changeIds : List String
deriving DecidableEq, Repr

/-- A row of the page's templates grid: the resource, its current version
and the computed new version. -/
structure ResourceWithVersions where
  resource : Resource
  currentVersion : Option String
  newVersion : Option String
deriving DecidableEq, Repr

/-- The page's `templates` memo: the pending-change resources of type
`ServiceTemplate`, each with its project id set to the current project and
its new version computed by incrementing the current version — replaced by
`0.0.0` when missing or not valid semver — by the selected release type. -/
def templates (pendingChangesByResource : List PendingChangeByResource)
    (currentProjectId : Option String) (version : ReleaseType) :
    List ResourceWithVersions :=
  (pendingChangesByResource.filter
      (fun x => x.resource.resourceType == EnumResourceType.ServiceTemplate)).map
    (fun resourceChanges =>
      let resource := { resourceChanges.resource with projectId := currentProjectId }
      let currentVersion := resource.version.map (fun v => v.version)
      let newVersion :=
        incrementVersion
          (match currentVersion with
           | none => "0.0.0"
           | some v => if valid v then v else "0.0.0")
          version
      { resource := resource
        currentVersion := currentVersion
        newVersion := newVersion })

/-- The page's `otherResources` memo: the pending-change resources of any
type other than `ServiceTemplate`, listed as they are. -/
def otherResources (pendingChangesByResource : List PendingChangeByResource) :
    List Resource :=
  (pendingChangesByResource.filter
      (fun x => x.resource.resourceType != EnumResourceType.ServiceTemplate)).map
    (fun resourceChanges => resourceChanges.resource)

/-- The claim's version rule, stated independently of the page's code: parse
the current version as `MAJOR.MINOR.PATCH`, fall back to `0.0.0` when it is
missing or does not parse, and bump by the release type. -/
def specNewVersion (currentVersion : Option String) (r : ReleaseType) : String :=
  renderSemver (bumpVersion r ((currentVersion.bind parseSemver).getD (0, 0, 0)))

/-- The page's fallback-then-increment computation agrees with the claim's
version rule: incrementing the fallback string always succeeds and yields
the parse-or-zero bump. -/
theorem incrementVersion_fallback (currentVersion : Option String)
    (r : ReleaseType) :
    incrementVersion
      (match currentVersion with
       | none => "0.0.0"
       | some v => if valid v then v else "0.0.0") r =
      some (specNewVersion currentVersion r) := by
  have h000 : parseSemver "0.0.0" = some (0, 0, 0) := by decide
  cases currentVersion with
  | none => simp [incrementVersion, specNewVersion, h000]
  | some v =>
    by_cases hv : valid v
    · obtain ⟨t, ht⟩ := Option.isSome_iff_exists.mp (by simpa [valid] using hv)
      simp [incrementVersion, specNewVersion, hv, ht]
    · have hnone : parseSemver v = none := by
        cases h : parseSemver v with
        | none => rfl
        | some t => exact absurd (by simp [valid, h]) hv
      simp [incrementVersion, specNewVersion, hv, hnone, h000]

/-- C8: on the publish-changes page every templates-grid row comes from a
pending-change resource of type `ServiceTemplate` and its new version is the
semver increment of the row's current version by the selected release type
(defaulting to minor), a missing or invalid current version being replaced
by `0.0.0` before incrementing; the resources of any other type are listed
as they are, with no version computation. -/
theorem templates_compute_semver_increment :
    (∀ (pending : List PendingChangeByResource) (projId : Option String)
        (r : ReleaseType), ∀ row ∈ templates pending projId r,
      row.resource.resourceType = EnumResourceType.ServiceTemplate ∧
      row.currentVersion = row.resource.version.map (fun v => v.version) ∧
      row.newVersion = some (specNewVersion row.currentVersion r)) ∧
    (∀ (pending : List PendingChangeByResource) (res : Resource),
      res ∈ otherResources pending ↔
        ∃ x ∈ pending, x.resource = res ∧
          res.resourceType ≠ EnumResourceType.ServiceTemplate) ∧
    defaultReleaseType = ReleaseType.minor := by
  refine ⟨?_, ?_, rfl⟩
  · intro pending projId r row hrow
    obtain ⟨x, hx, rfl⟩ := List.mem_map.mp hrow
    obtain ⟨hmem, htype⟩ := List.mem_filter.mp hx
    exact ⟨by simpa using htype, rfl, incrementVersion_fallback _ r⟩
  · intro pending res
    constructor
    · intro h
      obtain ⟨x, hx, rfl⟩ := List.mem_map.mp h
      obtain ⟨hmem, htype⟩ := List.mem_filter.mp hx
      exact ⟨x, hmem, rfl, by simpa using htype⟩
    · rintro ⟨x, hx, rfl, hne⟩
      exact List.mem_map.mpr ⟨x, List.mem_filter.mpr ⟨hx, by simpa using hne⟩, rfl⟩

end Amplication
